import Mathlib

/-!
Verification of the race-outcome simulation engine (`src/src/simulation.py`,
class `SimulationEngine`).

Shallow embedding conventions:
* Python floats are idealised as `ℚ` (exact rational arithmetic); every
  numeric literal of the source (`0.5`, `20.0`, `0.005`, ...) is exact in `ℚ`.
* The stats service (`self.sport.get_entity_stats`) is an abstract read-only
  lookup `String → Int → Option StatsData`; the claims quantify over it.
* Random draws (`np.random.gumbel`, `np.random.normal`) are modelled as
  arbitrary rational-valued functions of the draw index, supplied as explicit
  parameters; "for every realization of the random draws" becomes universal
  quantification over those functions.
* Python `dict` insertion (key kept at first-occurrence position, value
  overwritten) is modelled by `dictInsert`; `sorted(..., key, reverse=True)`
  (a stable descending sort) is modelled by `sortByKeyDesc`.
* A raised Python exception is modelled with `Except`: `SimError.valueError`
  is the `ValueError` numpy raises when reducing an empty array
  (`np.min([])`); `SimError.invalidRequest` models the `InvalidRequestError`
  of the specification's error taxonomy, which the source never raises — it
  is present only so that statements about that taxonomy can be written.
-/

namespace Sim

/-- The per-season aggregate dict (`stats_data['stats']`): the keys the engine
reads are `'Races'`, `'Avg Finish'`, `'Avg Start'`, each possibly absent
(the source reads them with `dict.get` defaults). -/
structure SeasonStats where
  races : Option ℚ
  avgFinish : Option ℚ
  avgStart : Option ℚ
deriving DecidableEq

/-- One `get_entity_stats` payload: the `'stats'` season dict (possibly
absent/empty, collapsed to `Option`), the `'splits'` dict mapping a
track-type key to that split's `'Avg Finish'` (itself optional, read with a
default), and the `'history'` list, most recent first, where each entry's
`'Finish'` is either a number or the string `'N/A'` (modelled as `none`). -/
structure StatsData where
  stats : Option SeasonStats
  splits : String → Option (Option ℚ)
  history : List (Option ℚ)

/-- The test of the source's guard
`not stats_data or not stats_data.get('stats') or stats_data['stats'].get('Races', 0) == 0`
(an empty `'stats'` dict is falsy in Python and also has `Races` defaulting
to 0, so both collapse to the `Option` being `none` / races defaulting 0). -/
def missingOrZeroRaces (sd : Option StatsData) : Bool :=
  match sd with
  | none => true
  | some d =>
    match d.stats with
    | none => true
    | some st => st.races.getD 0 == 0

/-- The known paved track-type categories of the source's fallback list
`["Intermediate", "Short Track", "Superspeedway", "Flat", "Concrete"]`. -/
def pavedCategories : List String :=
  ["Intermediate", "Short Track", "Superspeedway", "Flat", "Concrete"]

/-- The body of `calculate_driver_strength` once a usable record `dta` with
season stats `st` has been selected (source lines 26–70). -/
def strengthOfData (dta : StatsData) (st : SeasonStats) (track_type : String) : ℚ :=
  let avg_finish : ℚ := st.avgFinish.getD 20.0
  let base_strength : ℚ := 20.0 / max avg_finish 1.0
  let recent_finishes : List ℚ := (dta.history.take 5).filterMap id
  let recency_strength : ℚ :=
    if recent_finishes.isEmpty then base_strength
    else 20.0 / max (recent_finishes.sum / (recent_finishes.length : ℚ)) 1.0
  let lookup_type : String :=
    if track_type = "Road Course" then "road"
    else if track_type ∈ pavedCategories then
      (if (dta.splits track_type).isNone ∧ (dta.splits "paved").isSome then "paved"
       else track_type)
    else track_type
  let track_strength : ℚ :=
    match dta.splits lookup_type with
    | none => base_strength
    | some split_avg => 20.0 / max (split_avg.getD avg_finish) 1.0
  let avg_start : ℚ := st.avgStart.getD 20.0
  let qualifying_factor : ℚ := 1.0 + (20.0 - avg_start) * 0.005
  let combined_strength : ℚ :=
    base_strength * 0.4 + recency_strength * 0.3 + track_strength * 0.3
  combined_strength * qualifying_factor

/-- Embedding of `SimulationEngine.calculate_driver_strength` (source lines 11–70):
fetch the year's record, fall back to the previous year when the record is
missing or shows zero races, return the `0.5` floor when the fallback is
still missing or shows zero races, otherwise the weighted strength. -/
def calculate_driver_strength (lookup : String → Int → Option StatsData)
    (driver_id : String) (year : Int) (track_type : String) : ℚ :=
  let stats_data0 := lookup driver_id year
  let stats_data :=
    if missingOrZeroRaces stats_data0 then lookup driver_id (year - 1) else stats_data0
  match stats_data with
  | none => 0.5
  | some dta =>
    match dta.stats with
    | none => 0.5
    | some st =>
      if st.races.getD 0 = 0 then 0.5
      else strengthOfData dta st track_type

/-! ### Python dict insertion and stable descending sort -/

/-- Python `dict` assignment `scores[k] = v` on an association list: the key
keeps its first-occurrence position, the value is overwritten. -/
def dictInsert (k : String) (v : ℚ) : List (String × ℚ) → List (String × ℚ)
  | [] => [(k, v)]
  | (k', v') :: rest =>
    if k' = k then (k', v) :: rest else (k', v') :: dictInsert k v rest

/-- Insertion step of Python's stable descending `sorted(..., reverse=True)`:
`a` is the element that came earlier in the input, so among equal keys it is
placed in front of the later ones. -/
def ordInsertDesc (key : α → ℚ) (a : α) : List α → List α
  | [] => [a]
  | b :: l => if key b ≤ key a then a :: b :: l else b :: ordInsertDesc key a l

/-- Stable sort, descending by `key`: models Python's
`sorted(xs, key=key, reverse=True)` (stable: equal keys keep input order). -/
def sortByKeyDesc (key : α → ℚ) : List α → List α
  | [] => []
  | a :: l => ordInsertDesc key a (sortByKeyDesc key l)

/-- Score the entries of `order` in iteration order (`enumerate`), index
starting at `i`. -/
def scoreList (score : Nat → String → ℚ) : Nat → List String → List (String × ℚ)
  | _, [] => []
  | i, d :: rest => (d, score i d) :: scoreList score (i + 1) rest

/-- Build a scores dict over a lineup and return its keys sorted by score
descending: the shared shape of `_simulate_stage`'s final `sorted` and of the
pit-stop reorder in `_simulate_single_race`. -/
def rankBy (order : List String) (score : Nat → String → ℚ) : List String :=
  let scores := (scoreList score 0 order).foldl (fun acc p => dictInsert p.1 p.2 acc) []
  (sortByKeyDesc Prod.snd scores).map Prod.fst

/-! ### Stage, race and Monte Carlo simulation -/

/-- Embedding of the stage simulation (source lines 72–91): score each driver
as strength (default `0.5`) + position bonus `(len − i) * 0.01` + a Gumbel
draw, then sort descending by score.  `noise i` is the value drawn by
`np.random.gumbel(0, variance)` for the driver at position `i`; the variance
only parametrises the distribution, not its support, so a realization is an
arbitrary number. -/
def simulate_stage (current_order : List String) (strengths : String → Option ℚ)
    (noise : Nat → ℚ) : List String :=
  rankBy current_order
    (fun i driver =>
      (strengths driver).getD 0.5 + ((current_order.length : ℚ) - (i : ℚ)) * 0.01 + noise i)

/-- The pit-stop perturbation of `_simulate_single_race` (source lines
107–110 and 115–117): `pit_order_scores = {d: -i + pit_noise[i]}`, re-sorted
descending. -/
def pitShuffle (current_order : List String) (pit_noise : Nat → ℚ) : List String :=
  rankBy current_order (fun i _ => -(i : ℚ) + pit_noise i)

/-- One race's random draws: `s1`–`s4` are the Gumbel draws of the four
`_simulate_stage` calls (variances 1.0, 0.6, 0.6, 0.5), `p1`, `p2` the two
`np.random.normal(0, 2, len(drivers))` pit-noise vectors, all indexed by the
position of the driver in the lineup being scored. -/
structure RaceNoise where
  s1 : Nat → ℚ
  s2 : Nat → ℚ
  s3 : Nat → ℚ
  s4 : Nat → ℚ
  p1 : Nat → ℚ
  p2 : Nat → ℚ

/-- Embedding of the single-race simulation (source lines 93–123): initial
grid, stage 1, pit cycle, stage 2, pit cycle, final stage.  `drivers` is
`list(strengths.keys())`. -/
def simulate_single_race (drivers : List String) (strengths : String → Option ℚ)
    (nz : RaceNoise) : List String :=
  let o1 := simulate_stage drivers strengths nz.s1
  let o2 := simulate_stage o1 strengths nz.s2
  let o3 := pitShuffle o2 nz.p1
  let o4 := simulate_stage o3 strengths nz.s3
  let o5 := pitShuffle o4 nz.p2
  simulate_stage o5 strengths nz.s4

/-! ### `run_monte_carlo` -/

/-- Keys of a Python dict built by inserting the elements of a list in order:
duplicates are collapsed onto their first occurrence. -/
def pyDedup : List String → List String
  | [] => []
  | d :: rest => d :: (pyDedup rest).filter (fun x => x ≠ d)

/-- Errors a `run_monte_carlo` call can surface.  `valueError` is numpy's
`ValueError` (`zero-size array to reduction operation`) raised by
`np.min`/`np.max` on an empty finish list.  `invalidRequest` is the
specification's `InvalidRequestError`; the source contains no such
validation and never produces it — the constructor exists only so the
specification's error taxonomy can be stated. -/
inductive SimError where
  | valueError
  | invalidRequest
deriving DecidableEq

/-- One aggregated row of `run_monte_carlo`'s output (source lines 144–153). -/
structure AggEntry where
  driver : String
  avg_finish : ℚ
  win_prob : ℚ
  top_5_prob : ℚ
  top_10_prob : ℚ
  best_finish : Nat
  worst_finish : Nat
deriving DecidableEq

/-- The `metadata` dict of `run_monte_carlo`'s return value. -/
structure MCMetadata where
  year : Int
  track_type : String
  simulations : Int
  driver_count : Nat
deriving DecidableEq

/-- The return value of `run_monte_carlo`. -/
structure MCOutput where
  metadata : MCMetadata
  results : List AggEntry
deriving DecidableEq

/-- The `strengths` dict of `run_monte_carlo` (source lines 130–132) as a
lookup: defined on exactly the drivers of the request. -/
def mcStrength (lookup : String → Int → Option StatsData) (drivers : List String)
    (year : Int) (track_type : String) : String → Option ℚ :=
  fun d =>
    if d ∈ drivers then some (calculate_driver_strength lookup d year track_type)
    else none

/-- The finishing order of simulation number `i` (the dict keys iterate the
distinct drivers in first-occurrence order). -/
def mcRace (lookup : String → Int → Option StatsData) (drivers : List String)
    (year : Int) (track_type : String) (noise : Nat → RaceNoise) (i : Nat) :
    List String :=
  simulate_single_race (pyDedup drivers) (mcStrength lookup drivers year track_type)
    (noise i)

/-- The 1-based positions recorded for driver `d` in one finishing order
(source lines 136–139: `results[driver].append(pos + 1)`); `pos` is the
1-based position of the head of `order`. -/
def finishPositions (d : String) : Nat → List String → List Nat
  | _, [] => []
  | pos, x :: rest =>
    if x = d then pos :: finishPositions d (pos + 1) rest
    else finishPositions d (pos + 1) rest

/-- The list `results[d]` after the first `n` iterations of the simulation loop. -/
def mcFinishesAux (raceAt : Nat → List String) (d : String) : Nat → List Nat
  | 0 => []
  | n + 1 => mcFinishesAux raceAt d n ++ finishPositions d 1 (raceAt n)

/-- The list `results[d]` after the whole simulation loop (`range` of a non-positive
`num_simulations` is empty, as in Python). -/
def mcFinishes (lookup : String → Int → Option StatsData) (drivers : List String)
    (year : Int) (track_type : String) (num_simulations : Int)
    (noise : Nat → RaceNoise) (d : String) : List Nat :=
  mcFinishesAux (mcRace lookup drivers year track_type noise) d num_simulations.toNat

/-- One row of the aggregation loop (source lines 144–153).  On an empty
finish list `np.mean` yields `nan` (a value) but `int(np.min(...))` raises
`ValueError`, so the whole row construction raises. -/
def aggDriver (d : String) (finishes : List Nat) : Except SimError AggEntry :=
  match finishes with
  | [] => Except.error SimError.valueError
  | f :: fs =>
    Except.ok
      { driver := d
        avg_finish := ((f :: fs).map (fun x => (x : ℚ))).sum / ((f :: fs).length : ℚ)
        win_prob := (((f :: fs).countP (fun x => x == 1) : ℚ)) / ((f :: fs).length : ℚ)
        top_5_prob := (((f :: fs).countP (fun x => x ≤ 5) : ℚ)) / ((f :: fs).length : ℚ)
        top_10_prob := (((f :: fs).countP (fun x => x ≤ 10) : ℚ)) / ((f :: fs).length : ℚ)
        best_finish := fs.foldl Nat.min f
        worst_finish := fs.foldl Nat.max f }

/-- Run an effectful map over a list, aborting at the first raised error —
the behaviour of Python's aggregation `for` loop when a row raises. -/
def mapExcept (f : α → Except SimError β) : List α → Except SimError (List β)
  | [] => Except.ok []
  | x :: xs =>
    match f x with
    | Except.error e => Except.error e
    | Except.ok b =>
      match mapExcept f xs with
      | Except.error e => Except.error e
      | Except.ok bs => Except.ok (b :: bs)

/-- The `aggregated` list before sorting, in dict iteration order
(first-occurrence order of the distinct drivers). -/
def mcAggregated (lookup : String → Int → Option StatsData) (drivers : List String)
    (year : Int) (track_type : String) (num_simulations : Int)
    (noise : Nat → RaceNoise) : Except SimError (List AggEntry) :=
  mapExcept
    (fun d => aggDriver d (mcFinishes lookup drivers year track_type num_simulations noise d))
    (pyDedup drivers)

/-- Embedding of `SimulationEngine.run_monte_carlo` (source lines 125–167): precompute
strengths, run `num_simulations` races accumulating 1-based finishes per
driver, aggregate each driver's finishes (a numpy `ValueError` escaping the
aggregation loop aborts the call), sort descending by win probability with
Python's stable sort, and attach the metadata. -/
def run_monte_carlo (lookup : String → Int → Option StatsData) (drivers : List String)
    (year : Int) (track_type : String) (num_simulations : Int)
    (noise : Nat → RaceNoise) : Except SimError MCOutput :=
  match mcAggregated lookup drivers year track_type num_simulations noise with
  | Except.error e => Except.error e
  | Except.ok aggregated =>
    Except.ok
      { metadata :=
          { year := year
            track_type := track_type
            simulations := num_simulations
            driver_count := drivers.length }
        results := sortByKeyDesc (fun e => e.win_prob) aggregated }

/-! ### Permutation facts about the rank/sort machinery -/

theorem ordInsertDesc_perm (key : α → ℚ) (a : α) (l : List α) :
    (ordInsertDesc key a l).Perm (a :: l) := by
  induction l with
  | nil => exact List.Perm.refl _
  | cons b l ih =>
    unfold ordInsertDesc
    by_cases h : key b ≤ key a
    · simp only [h, if_pos]
      exact List.Perm.refl _
    · simp only [h, if_neg, not_false_iff]
      exact (ih.cons b).trans (List.Perm.swap a b l)

theorem sortByKeyDesc_perm (key : α → ℚ) (l : List α) :
    (sortByKeyDesc key l).Perm l := by
  induction l with
  | nil => exact List.Perm.refl _
  | cons a l ih =>
    exact (ordInsertDesc_perm key a (sortByKeyDesc key l)).trans (ih.cons a)

theorem dictInsert_keys (k : String) (v : ℚ) (l : List (String × ℚ)) :
    (dictInsert k v l).map Prod.fst =
      if k ∈ l.map Prod.fst then l.map Prod.fst else l.map Prod.fst ++ [k] := by
  induction l with
  | nil => simp [dictInsert]
  | cons p l ih =>
    by_cases h : p.1 = k
    · cases p
      simp_all [dictInsert]
    · cases p with
      | mk k' v' =>
        simp only at h
        simp only [dictInsert, if_neg h, List.map_cons]
        rw [ih]
        by_cases hk : k ∈ l.map Prod.fst
        · simp [hk, Ne.symm h]
        · simp [hk, Ne.symm h]

theorem scoreList_keys (score : Nat → String → ℚ) (l : List String) :
    ∀ i, (scoreList score i l).map Prod.fst = l := by
  induction l with
  | nil => intro i; rfl
  | cons d l ih => intro i; simp [scoreList, ih]

theorem foldl_dictInsert_keys (ps : List (String × ℚ)) :
    ∀ acc : List (String × ℚ),
      (acc.map Prod.fst ++ ps.map Prod.fst).Nodup →
      (ps.foldl (fun acc p => dictInsert p.1 p.2 acc) acc).map Prod.fst =
        acc.map Prod.fst ++ ps.map Prod.fst := by
  induction ps with
  | nil => intro acc _; simp
  | cons p ps ih =>
    intro acc hnd
    have hmem : p.1 ∉ acc.map Prod.fst := by
      intro hc
      rcases List.nodup_append.mp hnd with ⟨-, -, hdisj⟩
      exact hdisj hc (by simp)
    have hkeys : (dictInsert p.1 p.2 acc).map Prod.fst = acc.map Prod.fst ++ [p.1] := by
      rw [dictInsert_keys]; simp [hmem]
    simp only [List.foldl_cons]
    rw [ih (dictInsert p.1 p.2 acc) (by
      rw [hkeys]
      simpa [List.append_assoc] using hnd)]
    rw [hkeys]
    simp [List.append_assoc]

theorem rankBy_perm (order : List String) (score : Nat → String → ℚ)
    (h : order.Nodup) : (rankBy order score).Perm order := by
  unfold rankBy
  have hkeys :
      ((scoreList score 0 order).foldl (fun acc p => dictInsert p.1 p.2 acc) []).map Prod.fst
        = order := by
    have := foldl_dictInsert_keys (scoreList score 0 order) []
    simpa [scoreList_keys, h] using this
  calc
    ((sortByKeyDesc Prod.snd
        ((scoreList score 0 order).foldl (fun acc p => dictInsert p.1 p.2 acc) [])).map
          Prod.fst).Perm
        (((scoreList score 0 order).foldl (fun acc p => dictInsert p.1 p.2 acc) []).map
          Prod.fst) :=
      (sortByKeyDesc_perm Prod.snd _).map Prod.fst
    _ = order := hkeys

theorem rankBy_nodup (order : List String) (score : Nat → String → ℚ)
    (h : order.Nodup) : (rankBy order score).Nodup :=
  ((rankBy_perm order score h).nodup_iff).mpr h

theorem simulate_stage_perm (order : List String) (strengths : String → Option ℚ)
    (noise : Nat → ℚ) (h : order.Nodup) :
    (simulate_stage order strengths noise).Perm order :=
  rankBy_perm _ _ h

theorem pitShuffle_perm (order : List String) (pit_noise : Nat → ℚ)
    (h : order.Nodup) : (pitShuffle order pit_noise).Perm order :=
  rankBy_perm _ _ h

theorem simulate_single_race_perm (drivers : List String)
    (strengths : String → Option ℚ) (nz : RaceNoise) (h : drivers.Nodup) :
    (simulate_single_race drivers strengths nz).Perm drivers := by
  unfold simulate_single_race
  have h1 := simulate_stage_perm drivers strengths nz.s1 h
  have hn1 := h1.nodup_iff.mpr h
  have h2 := simulate_stage_perm _ strengths nz.s2 hn1
  have hn2 := h2.nodup_iff.mpr hn1
  have h3 := pitShuffle_perm _ nz.p1 hn2
  have hn3 := h3.nodup_iff.mpr hn2
  have h4 := simulate_stage_perm _ strengths nz.s3 hn3
  have hn4 := h4.nodup_iff.mpr hn3
  have h5 := pitShuffle_perm _ nz.p2 hn4
  have hn5 := h5.nodup_iff.mpr hn4
  have h6 := simulate_stage_perm _ strengths nz.s4 hn5
  exact h6.trans (h5.trans (h4.trans (h3.trans (h2.trans h1))))

/-! ### Concrete fixtures used by witnesses and counterexamples -/

/-- A stats service that knows nobody: every strength is the 0.5 floor. -/
def noLookup : String → Int → Option StatsData := fun _ _ => none

/-- A realization in which every random draw came out 0. -/
def zeroNoise : RaceNoise :=
  { s1 := fun _ => 0, s2 := fun _ => 0, s3 := fun _ => 0, s4 := fun _ => 0
    p1 := fun _ => 0, p2 := fun _ => 0 }

/-- All-zero draws for every simulation run. -/
def zeroRuns : Nat → RaceNoise := fun _ => zeroNoise

/-- A lookup with one season record for driver `"A"` in 2023: 10 races,
average finish 10, average start 5, a `road` split of 8, and recent
finishes 3, `N/A`, 7. -/
def exLookup : String → Int → Option StatsData := fun d y =>
  if d = "A" ∧ y = 2023 then
    some { stats := some { races := some 10, avgFinish := some 10, avgStart := some 5 }
           splits := fun s => if s = "road" then some (some 8) else none
           history := [some 3, none, some 7] }
  else none

/-! ### C1 -/

/-- C1: for every strength lookup and duplicate-free competitor list, the
finishing order of one race simulation (`_simulate_single_race`) is a
permutation of the competitor set, and each stage re-ranking
(`_simulate_stage`) returns a permutation of its (duplicate-free) input
lineup, for every realization of the random draws. -/
theorem C1_permutation (strengths : String → Option ℚ) (drivers : List String)
    (hd : drivers.Nodup) (nz : RaceNoise) (order : List String) (ho : order.Nodup)
    (noise : Nat → ℚ) :
    (simulate_single_race drivers strengths nz).Perm drivers ∧
      (simulate_stage order strengths noise).Perm order :=
  ⟨simulate_single_race_perm drivers strengths nz hd,
   simulate_stage_perm order strengths noise ho⟩

/-- Witness for C1 at a concrete two-driver field. -/
theorem C1_permutation_witness :
    (simulate_single_race ["A", "B"] (fun _ => some 1) zeroNoise).Perm ["A", "B"] ∧
      (simulate_stage ["X", "Y"] (fun _ => some 1) (fun _ => 0)).Perm ["X", "Y"] :=
  C1_permutation (fun _ => some 1) ["A", "B"] (by decide) zeroNoise ["X", "Y"]
    (by decide) (fun _ => 0)

/-! ### C2: the strength computation as the specification words it

The following `spec*` definitions transcribe the sentences of the claim —
"base = 20 / max(avg_finish, 1.0)", "recency applies the same formula to the
mean of up to the 5 most recent finishes (falling back to base when none are
available)", "track applies it to the matching track-type split (falling
back to base)", "qualifying_factor = 1 + (20 − avg_start) * 0.005", final
strength "(0.4·base + 0.3·recency + 0.3·track) · qualifying_factor", with
the year-retry rule "fetch the season record for the target year; if that
record is absent or shows zero races it retries with the previous year; if
still absent [or showing zero races] it returns the floor strength 0.5".
They are compared with `calculate_driver_strength`, the embedding of the
source. -/

/-- The claimed base formula "20 / max(avg_finish, 1.0)", applied to any average. -/
def specBase (avg : ℚ) : ℚ := 20 / max avg 1

/-- The claimed recency component: the same formula applied to the mean of up
to the 5 most recent finishes, falling back to base when none are available;
an unavailable finish is an `N/A` entry. -/
def specRecency (history : List (Option ℚ)) (base : ℚ) : ℚ :=
  match (history.take 5).filterMap id with
  | [] => base
  | f :: fs => specBase ((f :: fs).sum / (((f :: fs).length : ℚ)))

/-- The split key that "matches" the requested track type: `"Road Course"`
reads the `road` split, and a known paved category with no split of its own
reads the generalized `paved` split when one exists. -/
def specTrackKey (splits : String → Option (Option ℚ)) (track_type : String) : String :=
  if track_type = "Road Course" then "road"
  else if track_type ∈ ["Intermediate", "Short Track", "Superspeedway", "Flat", "Concrete"]
      ∧ (splits track_type).isNone ∧ (splits "paved").isSome then "paved"
  else track_type

/-- The claimed track component: the formula applied to the matching
track-type split, falling back to base; a split with no recorded average
finish falls back to the season average. -/
def specTrack (splits : String → Option (Option ℚ)) (avgFinish base : ℚ)
    (track_type : String) : ℚ :=
  match splits (specTrackKey splits track_type) with
  | none => base
  | some split_avg => specBase (split_avg.getD avgFinish)

/-- The claimed qualifying factor "1 + (20 − avg_start) * 0.005". -/
def specQualifyingFactor (avgStart : ℚ) : ℚ := 1 + (20 - avgStart) * 0.005

/-- The claimed weighted blend "(0.4·base + 0.3·recency + 0.3·track) ·
qualifying_factor". -/
def specStrengthFormula (dta : StatsData) (st : SeasonStats) (track_type : String) : ℚ :=
  let avgF := st.avgFinish.getD 20
  let base := specBase avgF
  (0.4 * base + 0.3 * specRecency dta.history base
      + 0.3 * specTrack dta.splits avgF base track_type)
    * specQualifyingFactor (st.avgStart.getD 20)

/-- A fetched record is usable when it is present and shows a nonzero race
count. -/
def specUsable (sd : Option StatsData) : Bool :=
  match sd with
  | none => false
  | some dta =>
    match dta.stats with
    | none => false
    | some st => decide (st.races.getD 0 ≠ 0)

/-- The claim's strength computation: fetch the target year, retry the
previous year when the record is absent or shows zero races, floor at 0.5
when the retry is also absent or shows zero races, otherwise the formula. -/
def spec_calculate (lookup : String → Int → Option StatsData)
    (driver_id : String) (year : Int) (track_type : String) : ℚ :=
  let chosen :=
    if specUsable (lookup driver_id year) then lookup driver_id year
    else lookup driver_id (year - 1)
  match chosen with
  | none => 0.5
  | some dta =>
    match dta.stats with
    | none => 0.5
    | some st =>
      if st.races.getD 0 = 0 then 0.5
      else specStrengthFormula dta st track_type

theorem specUsable_eq_not_missing (sd : Option StatsData) :
    specUsable sd = ! missingOrZeroRaces sd := by
  cases sd with
  | none => rfl
  | some dta =>
    cases h : dta.stats with
    | none => simp [specUsable, missingOrZeroRaces, h]
    | some st => by_cases hr : st.races.getD 0 = 0 <;>
        simp [specUsable, missingOrZeroRaces, h, hr]

theorem strengthOfData_eq_specFormula (dta : StatsData) (st : SeasonStats)
    (track_type : String) :
    strengthOfData dta st track_type = specStrengthFormula dta st track_type := by
  simp only [strengthOfData, specStrengthFormula]
  have hbase : (20.0 : ℚ) / max (st.avgFinish.getD 20.0) 1.0
      = specBase (st.avgFinish.getD 20) := by
    norm_num [specBase]
  have hqf : (1.0 : ℚ) + (20.0 - st.avgStart.getD 20.0) * 0.005
      = specQualifyingFactor (st.avgStart.getD 20) := by
    norm_num [specQualifyingFactor]
  have hrec :
      (if ((dta.history.take 5).filterMap id).isEmpty then
          (20.0 : ℚ) / max (st.avgFinish.getD 20.0) 1.0
        else 20.0 / max (((dta.history.take 5).filterMap id).sum /
            (((dta.history.take 5).filterMap id).length : ℚ)) 1.0)
        = specRecency dta.history (specBase (st.avgFinish.getD 20)) := by
    cases h : (dta.history.take 5).filterMap id with
    | nil => simp [specRecency, h, hbase]
    | cons f fs => norm_num [specRecency, h, specBase]
  have hkey :
      (if track_type = "Road Course" then "road"
        else if track_type ∈ pavedCategories then
          (if (dta.splits track_type).isNone ∧ (dta.splits "paved").isSome then "paved"
           else track_type)
        else track_type)
        = specTrackKey dta.splits track_type := by
    unfold specTrackKey pavedCategories
    by_cases h1 : track_type = "Road Course"
    · simp [h1]
    · by_cases h2 :
        track_type ∈ ["Intermediate", "Short Track", "Superspeedway", "Flat", "Concrete"]
      · by_cases h3 : (dta.splits track_type).isNone ∧ (dta.splits "paved").isSome
        · simp [h1, h2, h3]
        · simp [h1, h2, h3]
      · simp [h1, h2]
  have htrack :
      (match dta.splits (specTrackKey dta.splits track_type) with
        | none => (20.0 : ℚ) / max (st.avgFinish.getD 20.0) 1.0
        | some split_avg => 20.0 / max (split_avg.getD (st.avgFinish.getD 20.0)) 1.0)
        = specTrack dta.splits (st.avgFinish.getD 20) (specBase (st.avgFinish.getD 20))
            track_type := by
    cases h : dta.splits (specTrackKey dta.splits track_type) with
    | none => simp [specTrack, h, hbase]
    | some split_avg => norm_num [specTrack, h, specBase]
  rw [hkey, hrec, htrack, hqf, hbase]
  ring

theorem calculate_eq_spec (lookup : String → Int → Option StatsData)
    (driver_id : String) (year : Int) (track_type : String) :
    calculate_driver_strength lookup driver_id year track_type
      = spec_calculate lookup driver_id year track_type := by
  simp only [calculate_driver_strength, spec_calculate]
  rw [specUsable_eq_not_missing]
  cases hb : missingOrZeroRaces (lookup driver_id year) with
  | false =>
    simp only [hb, Bool.not_false, Bool.false_eq_true, if_false, if_true]
    cases h0 : lookup driver_id year with
    | none => rfl
    | some dta =>
      cases hs : dta.stats with
      | none => simp [hs]
      | some st =>
        by_cases hr : st.races.getD 0 = 0 <;>
          simp [hs, hr, strengthOfData_eq_specFormula]
  | true =>
    simp only [hb, Bool.not_true, Bool.false_eq_true, if_false, if_true]
    cases h1 : lookup driver_id (year - 1) with
    | none => rfl
    | some dta =>
      cases hs : dta.stats with
      | none => simp [hs]
      | some st =>
        by_cases hr : st.races.getD 0 = 0 <;>
          simp [hs, hr, strengthOfData_eq_specFormula]

/-- C2: `calculate_driver_strength` computes exactly what the specification
describes — target-year fetch, previous-year retry on an absent or zero-race
record, the 0.5 floor when the retry also fails in the same way, and
otherwise `(0.4·base + 0.3·recency + 0.3·track) · qualifying_factor` with
the stated base/recency/track/qualifying definitions ("if still absent" is
read as the persistence of the fetch-failure condition just introduced,
"absent or shows zero races"). -/
theorem C2_strength_formula (lookup : String → Int → Option StatsData)
    (driver_id : String) (year : Int) (track_type : String) :
    calculate_driver_strength lookup driver_id year track_type
      = spec_calculate lookup driver_id year track_type :=
  calculate_eq_spec lookup driver_id year track_type

/-! ### C3: positivity of the strength -/

theorem specBase_pos (a : ℚ) : 0 < specBase a :=
  div_pos (by norm_num) (lt_of_lt_of_le one_pos (le_max_right a 1))

theorem specRecency_pos (history : List (Option ℚ)) (base : ℚ) (h : 0 < base) :
    0 < specRecency history base := by
  unfold specRecency
  cases hm : (history.take 5).filterMap id with
  | nil => exact h
  | cons f fs => exact specBase_pos _

theorem specTrack_pos (splits : String → Option (Option ℚ)) (avgFinish base : ℚ)
    (track_type : String) (h : 0 < base) :
    0 < specTrack splits avgFinish base track_type := by
  unfold specTrack
  cases hm : splits (specTrackKey splits track_type) with
  | none => exact h
  | some split_avg => exact specBase_pos _

theorem specQualifyingFactor_pos (avgStart : ℚ) (h : avgStart < 220) :
    0 < specQualifyingFactor avgStart := by
  unfold specQualifyingFactor
  nlinarith [h]

theorem specStrengthFormula_pos (dta : StatsData) (st : SeasonStats)
    (track_type : String) (h : st.avgStart.getD 20 < 220) :
    0 < specStrengthFormula dta st track_type := by
  simp only [specStrengthFormula]
  have hb := specBase_pos (st.avgFinish.getD 20)
  have hr := specRecency_pos dta.history _ hb
  have ht := specTrack_pos dta.splits (st.avgFinish.getD 20) _ track_type hb
  have hq := specQualifyingFactor_pos _ h
  have hc : (0 : ℚ) < 0.4 * specBase (st.avgFinish.getD 20)
      + 0.3 * specRecency dta.history (specBase (st.avgFinish.getD 20))
      + 0.3 * specTrack dta.splits (st.avgFinish.getD 20)
          (specBase (st.avgFinish.getD 20)) track_type := by
    have h1 : (0 : ℚ) < 0.4 * specBase (st.avgFinish.getD 20) :=
      mul_pos (by norm_num) hb
    have h2 : (0 : ℚ) < 0.3 * specRecency dta.history (specBase (st.avgFinish.getD 20)) :=
      mul_pos (by norm_num) hr
    have h3 : (0 : ℚ) < 0.3 * specTrack dta.splits (st.avgFinish.getD 20)
        (specBase (st.avgFinish.getD 20)) track_type :=
      mul_pos (by norm_num) ht
    linarith
  exact mul_pos hc hq

/-- A season record whose huge average start (420) drives the qualifying
factor to `1 + (20 − 420)·0.005 = −1` and the strength to `−1`. -/
def c3Lookup : String → Int → Option StatsData := fun d y =>
  if d = "A" ∧ y = 2024 then
    some { stats := some { races := some 1, avgFinish := some 20, avgStart := some 420 }
           splits := fun _ => none
           history := [] }
  else none

/-- Counterexample to C3 as stated: with an arbitrarily large average start
the returned strength is not strictly positive (here it is exactly −1). -/
theorem C3_counterexample :
    calculate_driver_strength c3Lookup "A" 2024 "Intermediate" = -1 ∧
      ¬ (0 < calculate_driver_strength c3Lookup "A" 2024 "Intermediate") := by
  have h : calculate_driver_strength c3Lookup "A" 2024 "Intermediate" = -1 := by
    simp +decide [calculate_driver_strength, strengthOfData, c3Lookup,
      missingOrZeroRaces, pavedCategories, max_def]
    norm_num
  exact ⟨h, by rw [h]; norm_num⟩

/-- C3 amended: the strength is strictly positive provided every season
record the lookup can supply for the competitor has an average start below
220 (equivalently, a positive qualifying factor); the data-absent floor 0.5
is positive unconditionally.  With an average start of 220 or more the
source can return zero or negative strengths, refuting the unconditional
claim. -/
theorem C3_strength_pos (lookup : String → Int → Option StatsData)
    (driver_id : String) (year : Int) (track_type : String)
    (h : ∀ (y : Int) (rec : StatsData), lookup driver_id y = some rec →
      ∀ st : SeasonStats, rec.stats = some st → st.avgStart.getD 20 < 220) :
    0 < calculate_driver_strength lookup driver_id year track_type := by
  rw [calculate_eq_spec]
  simp only [spec_calculate]
  by_cases hu : specUsable (lookup driver_id year) = true
  · simp only [hu, if_true]
    cases h0 : lookup driver_id year with
    | none => norm_num
    | some rec =>
      cases hs : rec.stats with
      | none => norm_num [hs]
      | some st =>
        by_cases hr : st.races.getD 0 = 0
        · norm_num [hs, hr]
        · simpa [hs, hr] using
            specStrengthFormula_pos rec st track_type (h year rec h0 st hs)
  · simp only [hu, if_false]
    cases h1 : lookup driver_id (year - 1) with
    | none => norm_num
    | some rec =>
      cases hs : rec.stats with
      | none => norm_num [hs]
      | some st =>
        by_cases hr : st.races.getD 0 = 0
        · norm_num [hs, hr]
        · simpa [hs, hr] using
            specStrengthFormula_pos rec st track_type (h (year - 1) rec h1 st hs)

/-- Witness for the amended C3 at a concrete record (average start 5). -/
theorem C3_strength_pos_witness :
    0 < calculate_driver_strength exLookup "A" 2024 "Intermediate" :=
  C3_strength_pos exLookup "A" 2024 "Intermediate" (by
    intro y rec hrec st hst
    unfold exLookup at hrec
    split_ifs at hrec with hcond
    cases hrec
    cases hst
    norm_num)

/-! ### Counting finishes across the Monte Carlo loop -/

theorem pyDedup_nodup (l : List String) : (pyDedup l).Nodup := by
  induction l with
  | nil => exact List.nodup_nil
  | cons d rest ih =>
    refine List.nodup_cons.mpr ⟨?_, List.Nodup.filter _ ih⟩
    intro hmem
    have := (List.mem_filter.mp hmem).2
    simp at this

theorem pyDedup_eq_self (l : List String) (h : l.Nodup) : pyDedup l = l := by
  induction l with
  | nil => rfl
  | cons d rest ih =>
    rcases List.nodup_cons.mp h with ⟨hd, hrest⟩
    unfold pyDedup
    rw [ih hrest]
    congr 1
    exact List.filter_eq_self.mpr (fun x hx => by
      simp only [decide_eq_true_eq]
      exact fun hxd => hd (hxd ▸ hx))

theorem finishPositions_length (d : String) (order : List String) :
    ∀ pos, (finishPositions d pos order).length
      = order.countP (fun x => decide (x = d)) := by
  induction order with
  | nil => intro pos; rfl
  | cons x rest ih =>
    intro pos
    by_cases h : x = d <;>
      simp [finishPositions, h, ih (pos + 1), List.countP_cons]

theorem countP_eq_one_of_nodup_mem {K : List String} {d : String}
    (hK : K.Nodup) (hd : d ∈ K) :
    K.countP (fun x => decide (x = d)) = 1 := by
  induction K with
  | nil => cases hd
  | cons k ks ih =>
    rcases List.nodup_cons.mp hK with ⟨hk, hks⟩
    by_cases h : k = d
    · subst h
      have hz : ks.countP (fun x => decide (x = k)) = 0 :=
        List.countP_eq_zero.mpr (fun a ha => by
          simp only [decide_eq_true_eq]
          exact fun hak => hk (hak ▸ ha))
      simp [List.countP_cons, hz]
    · have hd' : d ∈ ks := by
        cases List.mem_cons.mp hd with
        | inl heq => exact absurd heq.symm h
        | inr hmem => exact hmem
      simp [List.countP_cons, h, ih hks hd']

theorem mcFinishesAux_length (raceAt : Nat → List String) (K : List String)
    (d : String) (hrace : ∀ i, (raceAt i).Perm K) (hK : K.Nodup) (hd : d ∈ K) :
    ∀ n, (mcFinishesAux raceAt d n).length = n := by
  intro n
  induction n with
  | zero => rfl
  | succ n ih =>
    have hcount : (finishPositions d 1 (raceAt n)).length = 1 := by
      rw [finishPositions_length]
      rw [(hrace n).countP_eq (fun x => decide (x = d))]
      exact countP_eq_one_of_nodup_mem hK hd
    simp [mcFinishesAux, ih, hcount]

theorem mcRace_perm (lookup : String → Int → Option StatsData) (drivers : List String)
    (year : Int) (track_type : String) (noise : Nat → RaceNoise) (i : Nat) :
    (mcRace lookup drivers year track_type noise i).Perm (pyDedup drivers) :=
  simulate_single_race_perm _ _ _ (pyDedup_nodup drivers)

theorem mcFinishes_length (lookup : String → Int → Option StatsData)
    (drivers : List String) (year : Int) (track_type : String)
    (num_simulations : Int) (noise : Nat → RaceNoise) (d : String)
    (hd : d ∈ pyDedup drivers) :
    (mcFinishes lookup drivers year track_type num_simulations noise d).length
      = num_simulations.toNat :=
  mcFinishesAux_length _ _ _ (mcRace_perm lookup drivers year track_type noise)
    (pyDedup_nodup drivers) hd _

theorem aggDriver_ok (d : String) (finishes : List Nat) (h : finishes ≠ []) :
    ∃ e, aggDriver d finishes = Except.ok e ∧ e.driver = d := by
  cases finishes with
  | nil => exact absurd rfl h
  | cons f fs => exact ⟨_, rfl, rfl⟩

theorem mapExcept_ok_map {α β : Type} (f : α → Except SimError β) (g : β → α)
    (l : List α) (h : ∀ a ∈ l, ∃ b, f a = Except.ok b ∧ g b = a) :
    ∃ bs, mapExcept f l = Except.ok bs ∧ bs.map g = l := by
  induction l with
  | nil => exact ⟨[], rfl, rfl⟩
  | cons x xs ih =>
    rcases h x (by simp) with ⟨b, hb, hgb⟩
    rcases ih (fun a ha => h a (by simp [ha])) with ⟨bs, hbs, hmap⟩
    exact ⟨b :: bs, by simp [mapExcept, hb, hbs], by simp [hgb, hmap]⟩

theorem mcAggregated_ok (lookup : String → Int → Option StatsData)
    (drivers : List String) (year : Int) (track_type : String)
    (num_simulations : Int) (noise : Nat → RaceNoise) (hn : 1 ≤ num_simulations) :
    ∃ agg, mcAggregated lookup drivers year track_type num_simulations noise
        = Except.ok agg ∧ agg.map AggEntry.driver = pyDedup drivers := by
  apply mapExcept_ok_map
  intro d hd
  have hlen := mcFinishes_length lookup drivers year track_type num_simulations noise d hd
  have hne : mcFinishes lookup drivers year track_type num_simulations noise d ≠ [] := by
    intro hnil
    rw [hnil] at hlen
    simp at hlen
    omega
  exact aggDriver_ok d _ hne

/-! ### C4 -/

/-- C4 amended: with a non-empty competitor list and `num_simulations ≤ 0`,
`run_monte_carlo` does fail without running a simulation and without
returning output, but the failure is numpy's `ValueError` escaping the
aggregation of an empty finish list, not a designed `InvalidRequestError`
validation. -/
theorem C4_nonpositive_sims_error (lookup : String → Int → Option StatsData)
    (drivers : List String) (year : Int) (track_type : String)
    (num_simulations : Int) (noise : Nat → RaceNoise)
    (hne : drivers ≠ []) (hn : num_simulations ≤ 0) :
    run_monte_carlo lookup drivers year track_type num_simulations noise
      = Except.error SimError.valueError := by
  cases drivers with
  | nil => exact absurd rfl hne
  | cons d rest =>
    have h0 : num_simulations.toNat = 0 := Int.toNat_of_nonpos hn
    simp [run_monte_carlo, mcAggregated, pyDedup, mapExcept, mcFinishes, h0,
      mcFinishesAux, aggDriver]

/-- Witness for the amended C4. -/
theorem C4_nonpositive_sims_error_witness :
    run_monte_carlo noLookup ["B"] 2024 "Flat" (-3) zeroRuns
      = Except.error SimError.valueError :=
  C4_nonpositive_sims_error noLookup ["B"] 2024 "Flat" (-3) zeroRuns
    (by simp) (by norm_num)

/-- Counterexample to C4 as stated: at `num_simulations = 0` the call is not
rejected as an `InvalidRequestError`; the error surfaced is the aggregation
`ValueError`. -/
theorem C4_counterexample :
    run_monte_carlo noLookup ["A"] 2024 "Intermediate" 0 zeroRuns
        = Except.error SimError.valueError ∧
      run_monte_carlo noLookup ["A"] 2024 "Intermediate" 0 zeroRuns
        ≠ Except.error SimError.invalidRequest := by
  constructor <;>
    simp [run_monte_carlo, mcAggregated, pyDedup, mapExcept, mcFinishes,
      mcFinishesAux, aggDriver, Int.toNat]

/-! ### C5 -/

/-- C5 amended: no track type — known or unknown — is ever rejected: for
every `track_type` string and `num_simulations ≥ 1` the simulation executes
and the call succeeds (an unknown type merely makes the track component fall
back to the competitor's base strength inside
`calculate_driver_strength`). -/
theorem C5_unknown_tracktype_not_rejected (lookup : String → Int → Option StatsData)
    (drivers : List String) (year : Int) (track_type : String)
    (num_simulations : Int) (noise : Nat → RaceNoise) (hn : 1 ≤ num_simulations) :
    (run_monte_carlo lookup drivers year track_type num_simulations noise).isOk
      = true := by
  rcases mcAggregated_ok lookup drivers year track_type num_simulations noise hn
    with ⟨agg, hagg, -⟩
  simp [run_monte_carlo, hagg, Except.isOk, Except.toBool]

/-- Witness for the amended C5 at the unknown track type `"Gravel"`. -/
theorem C5_unknown_tracktype_not_rejected_witness :
    (run_monte_carlo noLookup ["A"] 2024 "Gravel" 1 zeroRuns).isOk = true :=
  C5_unknown_tracktype_not_rejected noLookup ["A"] 2024 "Gravel" 1 zeroRuns
    (by norm_num)

/-- Counterexample to C5 as stated: a request whose track type `"Gravel"`
matches no split and no fallback category succeeds and simulates — it is not
rejected with an `InvalidRequestError`. -/
theorem C5_counterexample :
    (run_monte_carlo noLookup ["A"] 2024 "Gravel" 1 zeroRuns).isOk = true ∧
      run_monte_carlo noLookup ["A"] 2024 "Gravel" 1 zeroRuns
        ≠ Except.error SimError.invalidRequest := by
  constructor <;>
    simp +decide [run_monte_carlo, mcAggregated, mapExcept, aggDriver, mcFinishes,
      mcFinishesAux, mcRace, simulate_single_race, simulate_stage, pitShuffle, rankBy,
      scoreList, dictInsert, sortByKeyDesc, ordInsertDesc, finishPositions, pyDedup,
      mcStrength, calculate_driver_strength, missingOrZeroRaces, noLookup, zeroRuns,
      zeroNoise, Except.isOk]

/-! ### C6 -/

/-- C6: for a duplicate-free competitor list and `num_simulations ≥ 1`, the
number of finishing positions accumulated for each competitor by the
Monte Carlo loop is exactly `num_simulations`, for every realization of the
random draws. -/
theorem C6_finish_counts (lookup : String → Int → Option StatsData)
    (drivers : List String) (year : Int) (track_type : String)
    (num_simulations : Int) (noise : Nat → RaceNoise) (d : String)
    (hnd : drivers.Nodup) (hn : 1 ≤ num_simulations) (hd : d ∈ drivers) :
    ((mcFinishes lookup drivers year track_type num_simulations noise d).length : Int)
      = num_simulations := by
  have hd' : d ∈ pyDedup drivers := by
    rw [pyDedup_eq_self drivers hnd]; exact hd
  rw [mcFinishes_length lookup drivers year track_type num_simulations noise d hd']
  omega

/-- Witness for C6 with two drivers and three simulations. -/
theorem C6_finish_counts_witness :
    ((mcFinishes noLookup ["A", "B"] 2024 "Intermediate" 3 zeroRuns "B").length : Int)
      = 3 :=
  C6_finish_counts noLookup ["A", "B"] 2024 "Intermediate" 3 zeroRuns "B"
    (by decide) (by norm_num) (by decide)

/-! ### Sortedness and stability of the final ranking -/

theorem ordInsertDesc_pairwise (key : α → ℚ) (a : α) (l : List α)
    (h : l.Pairwise (fun x y => key y ≤ key x)) :
    (ordInsertDesc key a l).Pairwise (fun x y => key y ≤ key x) := by
  induction l with
  | nil => simp [ordInsertDesc]
  | cons b l ih =>
    rcases List.pairwise_cons.mp h with ⟨hb, hl⟩
    unfold ordInsertDesc
    by_cases hba : key b ≤ key a
    · simp only [hba, if_pos]
      refine List.pairwise_cons.mpr ⟨?_, h⟩
      intro y hy
      rcases List.mem_cons.mp hy with heq | hmem
      · exact heq ▸ hba
      · exact le_trans (hb y hmem) hba
    · simp only [hba, if_neg, not_false_iff]
      refine List.pairwise_cons.mpr ⟨?_, ih hl⟩
      intro y hy
      rcases List.mem_cons.mp ((ordInsertDesc_perm key a l).mem_iff.mp hy) with heq | hmem
      · exact heq ▸ le_of_not_le hba
      · exact hb y hmem

theorem sortByKeyDesc_pairwise (key : α → ℚ) (l : List α) :
    (sortByKeyDesc key l).Pairwise (fun x y => key y ≤ key x) := by
  induction l with
  | nil => exact List.Pairwise.nil
  | cons a l ih => exact ordInsertDesc_pairwise key a _ ih

theorem ordInsertDesc_filter (key : α → ℚ) (q : ℚ) (a : α) (l : List α) :
    (ordInsertDesc key a l).filter (fun x => decide (key x = q))
      = if key a = q then a :: l.filter (fun x => decide (key x = q))
        else l.filter (fun x => decide (key x = q)) := by
  induction l with
  | nil => by_cases h : key a = q <;> simp [ordInsertDesc, h]
  | cons b l ih =>
    unfold ordInsertDesc
    by_cases hba : key b ≤ key a
    · rw [if_pos hba]
      by_cases ha : key a = q <;> by_cases hb : key b = q <;>
        simp [List.filter_cons, ha, hb]
    · rw [if_neg hba]
      have hlt : key a < key b := not_le.mp hba
      by_cases ha : key a = q
      · have hbq : ¬ (key b = q) := by
          rw [← ha]
          exact ne_of_gt hlt
        simp [List.filter_cons, ha, hbq, ih]
      · by_cases hb : key b = q <;> simp [List.filter_cons, ha, hb, ih]

theorem sortByKeyDesc_filter (key : α → ℚ) (q : ℚ) (l : List α) :
    (sortByKeyDesc key l).filter (fun x => decide (key x = q))
      = l.filter (fun x => decide (key x = q)) := by
  induction l with
  | nil => rfl
  | cons a l ih =>
    simp only [sortByKeyDesc]
    rw [ordInsertDesc_filter]
    by_cases ha : key a = q <;> simp [ha, List.filter_cons, ih]

/-! ### C7 -/

/-- A realization whose race 0 lets the second-running driver surge in the
final stage. -/
def bigFinalNoise : RaceNoise :=
  { s1 := fun _ => 0, s2 := fun _ => 0, s3 := fun _ => 0
    s4 := fun j => if j = 1 then 10 else 0
    p1 := fun _ => 0, p2 := fun _ => 0 }

/-- Draws for C7's counterexample: driver at position 1 wins run 0, the
leader wins run 1, producing tied win probabilities. -/
def c7Noise : Nat → RaceNoise := fun i => if i = 0 then bigFinalNoise else zeroNoise

/-- Counterexample to C7 as stated: a run with tied win probabilities (both
`0.5`) returns `["B", "A"]` — the input-list order — not the competitor-id
order `["A", "B"]` the claim's documented deterministic key would give. -/
theorem C7_counterexample :
    (run_monte_carlo noLookup ["B", "A"] 2024 "Intermediate" 2 c7Noise).toOption.map
        (fun o => o.results.map AggEntry.driver) = some ["B", "A"] ∧
      (run_monte_carlo noLookup ["B", "A"] 2024 "Intermediate" 2 c7Noise).toOption.map
        (fun o => o.results.map AggEntry.win_prob) = some [0.5, 0.5] := by
  constructor <;>
    · norm_num [run_monte_carlo, mcAggregated, mapExcept, aggDriver, mcFinishes,
        mcFinishesAux, mcRace, simulate_single_race, simulate_stage, pitShuffle, rankBy,
        scoreList, dictInsert, sortByKeyDesc, ordInsertDesc, finishPositions, pyDedup,
        mcStrength, calculate_driver_strength, missingOrZeroRaces, noLookup, c7Noise,
        bigFinalNoise, zeroNoise, Except.toOption]
      simp
      norm_num [sortByKeyDesc, ordInsertDesc]

/-- C7 amended: the result list is sorted in descending order of
`win_probability`; ties keep the order of the pre-sort aggregated list —
the first-occurrence order of the input competitor list — because the sort
is stable.  That tie-break is deterministic for this embedding but is not a
documented competitor-id key (see the counterexample). -/
theorem C7_sorted_desc (lookup : String → Int → Option StatsData)
    (drivers : List String) (year : Int) (track_type : String)
    (num_simulations : Int) (noise : Nat → RaceNoise) (out : MCOutput)
    (h : run_monte_carlo lookup drivers year track_type num_simulations noise
      = Except.ok out) :
    out.results.Pairwise (fun a b => b.win_prob ≤ a.win_prob) ∧
      ∃ agg, mcAggregated lookup drivers year track_type num_simulations noise
          = Except.ok agg ∧
        ∀ q : ℚ, out.results.filter (fun e => decide (e.win_prob = q))
          = agg.filter (fun e => decide (e.win_prob = q)) := by
  cases hagg : mcAggregated lookup drivers year track_type num_simulations noise with
  | error e => simp [run_monte_carlo, hagg] at h
  | ok agg =>
    have hout : out.results = sortByKeyDesc (fun e => e.win_prob) agg := by
      simp only [run_monte_carlo, hagg] at h
      injection h with h
      rw [← h]
    refine ⟨?_, agg, rfl, ?_⟩
    · rw [hout]
      exact sortByKeyDesc_pairwise (fun e => e.win_prob) agg
    · intro q
      rw [hout]
      exact sortByKeyDesc_filter (fun e => e.win_prob) q agg

/-- The output of a one-driver, one-simulation run, used as C7's witness. -/
def mcOut7 : MCOutput :=
  { metadata := { year := 2024, track_type := "Flat", simulations := 1, driver_count := 1 }
    results := [{ driver := "A", avg_finish := 1, win_prob := 1, top_5_prob := 1,
                  top_10_prob := 1, best_finish := 1, worst_finish := 1 }] }

/-- Witness for the amended C7. -/
theorem C7_sorted_desc_witness :
    mcOut7.results.Pairwise (fun a b => b.win_prob ≤ a.win_prob) ∧
      ∃ agg, mcAggregated noLookup ["A"] 2024 "Flat" 1 zeroRuns = Except.ok agg ∧
        ∀ q : ℚ, mcOut7.results.filter (fun e => decide (e.win_prob = q))
          = agg.filter (fun e => decide (e.win_prob = q)) :=
  C7_sorted_desc noLookup ["A"] 2024 "Flat" 1 zeroRuns mcOut7 (by
    simp +decide [run_monte_carlo, mcAggregated, mapExcept, aggDriver, mcFinishes,
      mcFinishesAux, mcRace, simulate_single_race, simulate_stage, pitShuffle, rankBy,
      scoreList, dictInsert, sortByKeyDesc, ordInsertDesc, finishPositions, pyDedup,
      mcStrength, calculate_driver_strength, missingOrZeroRaces, noLookup, zeroRuns,
      zeroNoise, mcOut7])

/-! ### C8 -/

/-- C8: for every year, track type and `num_simulations` (any integer), a
run over the empty competitor list succeeds and returns an empty result
list (with `driver_count = 0` in the metadata). -/
theorem C8_empty_drivers (lookup : String → Int → Option StatsData) (year : Int)
    (track_type : String) (num_simulations : Int) (noise : Nat → RaceNoise) :
    run_monte_carlo lookup [] year track_type num_simulations noise
      = Except.ok
          { metadata :=
              { year := year, track_type := track_type,
                simulations := num_simulations, driver_count := 0 }
            results := [] } := rfl

/-! ### C9 -/

/-- C9: `calculate_driver_strength` is deterministic — two stats lookups
with identical contents (pointwise equal, however they are implemented)
give identical strengths for the same competitor, year and track type; the
computation consumes no random source. -/
theorem C9_deterministic (lookup1 lookup2 : String → Int → Option StatsData)
    (driver_id : String) (year : Int) (track_type : String)
    (h : ∀ d y, lookup1 d y = lookup2 d y) :
    calculate_driver_strength lookup1 driver_id year track_type
      = calculate_driver_strength lookup2 driver_id year track_type := by
  simp only [calculate_driver_strength, h]

/-- The record of `exLookup` with the membership test written the other way
around: a different implementation with the same contents. -/
def exLookupSwapped : String → Int → Option StatsData := fun d y =>
  if y = 2023 ∧ d = "A" then
    some { stats := some { races := some 10, avgFinish := some 10, avgStart := some 5 }
           splits := fun s => if s = "road" then some (some 8) else none
           history := [some 3, none, some 7] }
  else none

/-- Witness for C9 on two pointwise-equal lookup implementations. -/
theorem C9_deterministic_witness :
    calculate_driver_strength exLookup "A" 2024 "Road Course"
      = calculate_driver_strength exLookupSwapped "A" 2024 "Road Course" :=
  C9_deterministic exLookup exLookupSwapped "A" 2024 "Road Course" (by
    intro d y
    simp only [exLookup, exLookupSwapped]
    by_cases h1 : d = "A" ∧ y = 2023
    · simp [h1.1, h1.2]
    · have h2 : ¬ (y = 2023 ∧ d = "A") := fun hc => h1 ⟨hc.2, hc.1⟩
      simp [h1, h2])

/-! ### C10 -/

/-- C10: duplicate identifiers in the competitor list are silently
collapsed: the result list holds exactly one aggregate entry per distinct
identifier (as a list, it enumerates the first-occurrence deduplication of
the input, up to the ranking order), each distinct identifier accumulates
exactly `num_simulations` finishing positions, while the metadata's
`driver_count` still reports the length of the original list, duplicates
included. -/
theorem C10_duplicates_collapse (lookup : String → Int → Option StatsData)
    (drivers : List String) (year : Int) (track_type : String)
    (num_simulations : Int) (noise : Nat → RaceNoise) (out : MCOutput)
    (hdup : ¬ drivers.Nodup) (hn : 1 ≤ num_simulations)
    (h : run_monte_carlo lookup drivers year track_type num_simulations noise
      = Except.ok out) :
    (out.results.map AggEntry.driver).Perm (pyDedup drivers) ∧
      (pyDedup drivers).Nodup ∧
      (∀ d ∈ pyDedup drivers,
        ((mcFinishes lookup drivers year track_type num_simulations noise d).length : Int)
          = num_simulations) ∧
      out.metadata.driver_count = drivers.length := by
  rcases mcAggregated_ok lookup drivers year track_type num_simulations noise hn
    with ⟨agg, hagg, hmap⟩
  have hout : out
      = { metadata :=
            { year := year, track_type := track_type,
              simulations := num_simulations, driver_count := drivers.length }
          results := sortByKeyDesc (fun e => e.win_prob) agg } := by
    simp only [run_monte_carlo, hagg] at h
    injection h with h
    exact h.symm
  subst hout
  refine ⟨?_, pyDedup_nodup drivers, ?_, rfl⟩
  · have hperm := (sortByKeyDesc_perm (fun e => e.win_prob) agg).map AggEntry.driver
    rw [hmap] at hperm
    exact hperm
  · intro d hd
    rw [mcFinishes_length lookup drivers year track_type num_simulations noise d hd]
    omega

/-- The output of the duplicate-list run used as C10's witness. -/
def mcOut10 : MCOutput :=
  { metadata :=
      { year := 2024, track_type := "Intermediate", simulations := 1, driver_count := 2 }
    results := [{ driver := "A", avg_finish := 1, win_prob := 1, top_5_prob := 1,
                  top_10_prob := 1, best_finish := 1, worst_finish := 1 }] }

/-- Witness for C10 on the duplicate list `["A", "A"]`. -/
theorem C10_duplicates_collapse_witness :
    (mcOut10.results.map AggEntry.driver).Perm (pyDedup ["A", "A"]) ∧
      (pyDedup ["A", "A"]).Nodup ∧
      (∀ d ∈ pyDedup ["A", "A"],
        ((mcFinishes noLookup ["A", "A"] 2024 "Intermediate" 1 zeroRuns d).length : Int)
          = 1) ∧
      mcOut10.metadata.driver_count = (["A", "A"] : List String).length :=
  C10_duplicates_collapse noLookup ["A", "A"] 2024 "Intermediate" 1 zeroRuns mcOut10
    (by decide) (by norm_num) (by
      simp +decide [run_monte_carlo, mcAggregated, mapExcept, aggDriver, mcFinishes,
        mcFinishesAux, mcRace, simulate_single_race, simulate_stage, pitShuffle, rankBy,
        scoreList, dictInsert, sortByKeyDesc, ordInsertDesc, finishPositions, pyDedup,
        mcStrength, calculate_driver_strength, missingOrZeroRaces, noLookup, zeroRuns,
        zeroNoise, mcOut10])

end Sim
